import Mathlib

/-!
Verification of the MCP server core against its specification.

Shallow embedding of the server's Python source:
pure functions become Lean functions, stateful components become explicit
state passing, machine integers become Int/Nat, fallible code returns
Except.  File-system and clock effects are modelled as explicit operation
traces or oracle parameters.
-/

namespace MCP

/-- JSON values (model of the dynamic dicts used for JSON-RPC payloads and
tool arguments; Python floats are not used by the verified paths). -/
inductive JsonValue where
  | null
  | bool (b : Bool)
  | int (n : Int)
  | str (s : String)
  | arr (xs : List JsonValue)
  | obj (fields : List (String × JsonValue))

/-! ## Glob matching (model of Python fnmatch.fnmatch on POSIX)

`fnmatch.fnmatch` translates the pattern: `*` matches any run of
characters, `?` any single character, `[...]` a character class with
optional leading `!` negation and `a-b` ranges; an unterminated `[` is a
literal.  `os.path.normcase` is the identity on POSIX. -/

/-- Scan a character class body up to the closing bracket; returns the
class content and the remaining pattern, or none when unterminated. -/
def parseClassCore : List Char → List Char → Option (List Char × List Char)
  | _, [] => none
  | acc, ']' :: rest => some (acc.reverse, rest)
  | acc, c :: rest => parseClassCore (c :: acc) rest

/-- Parse a character class after the opening bracket: optional `!`
negation, then a leading `]` is content, then everything up to `]`. -/
def parseClass (ps : List Char) : Option (Bool × List Char × List Char) :=
  match ps with
  | '!' :: ']' :: rest => (parseClassCore [']'] rest).map (fun p => (true, p.1, p.2))
  | '!' :: rest => (parseClassCore [] rest).map (fun p => (true, p.1, p.2))
  | ']' :: rest => (parseClassCore [']'] rest).map (fun p => (false, p.1, p.2))
  | _ => (parseClassCore [] ps).map (fun p => (false, p.1, p.2))

/-- Compiled glob pattern element. -/
inductive GlobTok where
  | star
  | any
  | lit (c : Char)
  | cls (neg : Bool) (content : List Char)
deriving DecidableEq

/-- Compile a glob pattern (model of fnmatch.translate's scan).  The fuel
argument bounds the recursion depth; each step consumes at least one
pattern character, so `ps.length` fuel is always sufficient. -/
def translatePatternFuel : Nat → List Char → List GlobTok
  | 0, _ => []
  | _ + 1, [] => []
  | fuel + 1, '*' :: ps => .star :: translatePatternFuel fuel ps
  | fuel + 1, '?' :: ps => .any :: translatePatternFuel fuel ps
  | fuel + 1, '[' :: ps =>
    match parseClass ps with
    | none => .lit '[' :: translatePatternFuel fuel ps
    | some (neg, content, rest) => .cls neg content :: translatePatternFuel fuel rest
  | fuel + 1, c :: ps => .lit c :: translatePatternFuel fuel ps

/-- Compile a whole glob pattern. -/
def translatePattern (ps : List Char) : List GlobTok :=
  translatePatternFuel ps.length ps

/-- Does a character class body match a character (`a-b` ranges, literals;
a `-` first or last is literal, as in fnmatch's regex translation). -/
def matchClassChars : List Char → Char → Bool
  | [], _ => false
  | a :: '-' :: b :: rest, c =>
    (decide (a.toNat ≤ c.toNat) && decide (c.toNat ≤ b.toNat)) || matchClassChars rest c
  | a :: rest, c => a == c || matchClassChars rest c

/-- Match a compiled pattern against a character list.  Each step shortens
the pattern or the string, so `ts.length + cs.length + 1` fuel always
suffices. -/
def globMatchFuel : Nat → List GlobTok → List Char → Bool
  | 0, _, _ => false
  | _ + 1, [], [] => true
  | _ + 1, [], _ :: _ => false
  | f + 1, .star :: ts, [] => globMatchFuel f ts []
  | f + 1, .star :: ts, c :: cs =>
    globMatchFuel f ts (c :: cs) || globMatchFuel f (.star :: ts) cs
  | _ + 1, .any :: _, [] => false
  | f + 1, .any :: ts, _ :: cs => globMatchFuel f ts cs
  | _ + 1, .lit _ :: _, [] => false
  | f + 1, .lit a :: ts, c :: cs => a == c && globMatchFuel f ts cs
  | _ + 1, .cls _ _ :: _, [] => false
  | f + 1, .cls neg content :: ts, c :: cs =>
    (matchClassChars content c != neg) && globMatchFuel f ts cs

/-- Model of fnmatch.fnmatch(name, pat) on POSIX. -/
def fnmatch (name pat : String) : Bool :=
  let toks := translatePattern pat.toList
  globMatchFuel (toks.length + name.toList.length + 1) toks name.toList

/-! ## Permission value type (security/permission.py) -/

/-- PermissionType enum. -/
inductive PermissionType where
  | FILE_READ
  | FILE_WRITE
  | FILE_DELETE
  | FILE_WRITE_GLOBAL
  | CODE_EXECUTION
  | CODE_EXECUTION_SUDO
  | SYSTEM_COMMAND
  | NETWORK_OUTBOUND
  | NETWORK_LISTEN
  | PROCESS_SPAWN
  | PROCESS_KILL
deriving DecidableEq

/-- self.type.startswith of the FILE underscore prefix string. -/
def PermissionType.isFile : PermissionType → Bool
  | .FILE_READ => true
  | .FILE_WRITE => true
  | .FILE_DELETE => true
  | .FILE_WRITE_GLOBAL => true
  | _ => false

/-- A permission resource is either a single string (path pattern or
command name) or a sequence of strings (command whitelist). -/
inductive PResource where
  | str (s : String)
  | strList (l : List String)
deriving DecidableEq

/-- Permission dataclass.  The parameter map is modelled as an association
list of strings; its contents never influence matching or equality. -/
structure Permission where
  type : PermissionType
  resource : Option PResource := none
  restricted : Bool := true
  parameters : List (String × String) := []
deriving DecidableEq

/-- fnmatch applied to two resources.  With a sequence resource on a FILE
permission the source would raise a TypeError inside fnmatch; theorems
about matching therefore restrict to validated permissions
(Permission.validB) on which this branch is unreachable. -/
def fnmatchRes : PResource → PResource → Bool
  | .str name, .str pat => fnmatch name pat
  | _, _ => false

/-- Permission.matches from the source: does self (grantor) cover other
(required)? -/
def Permission.pmatches (self other : Permission) : Bool :=
  if self.type ≠ other.type then false
  else
    match self.resource with
    | none => true
    | some selfRes =>
      match other.resource with
      | none => false
      | some otherRes =>
        if self.type.isFile then
          fnmatchRes otherRes selfRes
        else if self.type = .SYSTEM_COMMAND then
          match selfRes, otherRes with
          | .strList l, .str s => l.contains s
          | .strList _, .strList _ => false
          | .str a, r => PResource.str a == r
        else
          selfRes == otherRes

/-- Permission validation from the source (underscore validate): FILE
permissions with a resource require a string resource; SYSTEM_COMMAND
requires a resource.  A permission that fails this check cannot be
constructed. -/
def Permission.validB (p : Permission) : Bool :=
  (match p.type.isFile, p.resource with
   | true, some (.strList _) => false
   | _, _ => true) &&
  (match p.type, p.resource with
   | .SYSTEM_COMMAND, none => false
   | _, _ => true)

/-- The spec's match semantics, transcribed from its words: types must
agree; a grantor without resource is a wildcard; for file types the
required resource is glob-matched against the grantor pattern; for
system-command the required command must equal the grantor string or be
contained in the grantor sequence; for all others the resources must be
equal. -/
def specMatches (g r : Permission) : Prop :=
  g.type = r.type ∧
    (g.resource = none ∨
     (g.type.isFile = true ∧
       ∃ pat res, g.resource = some (.str pat) ∧ r.resource = some (.str res) ∧
         fnmatch res pat = true) ∨
     (g.type = .SYSTEM_COMMAND ∧
       ((∃ s, g.resource = some (.str s) ∧ r.resource = some (.str s)) ∨
        (∃ l s, g.resource = some (.strList l) ∧ r.resource = some (.str s) ∧ s ∈ l))) ∨
     (g.type.isFile = false ∧ g.type ≠ .SYSTEM_COMMAND ∧ g.resource = r.resource ∧
       g.resource ≠ none))

/-- Permission equality from the source (its underscore eq underscore):
compares type, resource and restricted flag only. -/
def Permission.pyEq (a b : Permission) : Bool :=
  a.type == b.type && a.resource == b.resource && a.restricted == b.restricted

/-- Predefined permission READ_APP_DATA. -/
def READ_APP_DATA : Permission :=
  { type := .FILE_READ, resource := some (.str "/app/data/*") }

/-- Predefined permission COMMAND_LS. -/
def COMMAND_LS : Permission :=
  { type := .SYSTEM_COMMAND, resource := some (.str "ls") }

/-- Predefined permission COMMAND_ECHO. -/
def COMMAND_ECHO : Permission :=
  { type := .SYSTEM_COMMAND, resource := some (.str "echo") }

/-- Default minimal permission set. -/
def DEFAULT_PERMISSIONS : List Permission :=
  [READ_APP_DATA, COMMAND_LS, COMMAND_ECHO]

/-! ## PermissionManager (security/permission_manager.py) -/

/-- Payload of a permission-audit entry (the data dict of the three
call sites of the underscore log underscore audit helper). -/
inductive PermAuditData where
  | count (n : Nat)
  | perm (p : Permission)
  | revokedCount (t : PermissionType) (n : Nat)
deriving DecidableEq

/-- Entry of the permission managers internal audit ring (timestamp
omitted: wall-clock only). -/
structure PermAuditEntry where
  eventType : String
  clientId : String
  data : PermAuditData
deriving DecidableEq

/-- PermissionManager state: client permissions and the audit ring. -/
structure PermissionManager where
  clientPermissions : List (String × List Permission) := []
  auditTrail : List PermAuditEntry := []
deriving DecidableEq

/-- Association-list lookup (model of dict indexing). -/
def alistGet {α : Type} (l : List (String × α)) (k : String) : Option α :=
  match l with
  | [] => none
  | (k', v) :: rest => if k' = k then some v else alistGet rest k

/-- Association-list update or insert (model of dict assignment). -/
def alistSet {α : Type} (l : List (String × α)) (k : String) (v : α) : List (String × α) :=
  match l with
  | [] => [(k, v)]
  | (k', v') :: rest => if k' = k then (k, v) :: rest else (k', v') :: alistSet rest k v

/-- initialize_client: install the given permissions (or the default set)
and append a client-initialized audit event. -/
def initClient (m : PermissionManager) (clientId : String)
    (initialPermissions : Option (List Permission) := none) : PermissionManager :=
  let perms := initialPermissions.getD DEFAULT_PERMISSIONS
  { clientPermissions := alistSet m.clientPermissions clientId perms,
    auditTrail := m.auditTrail ++
      [{ eventType := "client_initialized", clientId := clientId,
         data := .count perms.length }] }

/-- grant_permission: initialize the client if absent; skip (and leave the
state unchanged) when an equal permission (Permission.pyEq) is already
held; otherwise append the permission and an audit event. -/
def grantPermission (m : PermissionManager) (clientId : String)
    (permission : Permission) : PermissionManager :=
  let m := if (alistGet m.clientPermissions clientId).isNone
    then initClient m clientId else m
  match alistGet m.clientPermissions clientId with
  | none => m
  | some perms =>
    if perms.any (fun p => p.pyEq permission) then m
    else
      { clientPermissions := alistSet m.clientPermissions clientId (perms ++ [permission]),
        auditTrail := m.auditTrail ++
          [{ eventType := "permission_granted", clientId := clientId,
             data := .perm permission }] }

/-- The permissions currently granted to a client (empty when the client
has no permission set). -/
def grantedPerms (m : PermissionManager) (clientId : String) : List Permission :=
  (alistGet m.clientPermissions clientId).getD []

/-- has_permission: false for unknown clients, otherwise true iff some
granted permission covers the required one. -/
def hasPermission (m : PermissionManager) (clientId : String)
    (required : Permission) : Bool :=
  match alistGet m.clientPermissions clientId with
  | none => false
  | some perms => perms.any (fun granted => granted.pmatches required)

/-- The distinguished denial error raised by check_permission. -/
structure PermissionDeniedError where
  clientId : String
  permission : Permission
deriving DecidableEq

/-- check_permission: raise (recording a denial audit event) when
has_permission is false, otherwise return normally with the state
untouched. -/
def checkPermission (m : PermissionManager) (clientId : String)
    (required : Permission) : PermissionManager × Except PermissionDeniedError Unit :=
  if hasPermission m clientId required then (m, .ok ())
  else
    ({ m with auditTrail := m.auditTrail ++
        [{ eventType := "permission_denied", clientId := clientId,
           data := .perm required }] },
     .error { clientId := clientId, permission := required })

/-! ## Client isolation (resources/client_isolation.py)

Filesystem paths are modelled purely: an absolute path is its list of
components (each a list of characters); the configured base directory is
taken already resolved.  Path.resolve follows no symlinks in this model. -/

/-- Split a character list on slashes (model of splitting a POSIX path
string; pathlib keeps non-empty, non-dot components). -/
def splitOnSlash : List Char → List (List Char)
  | [] => [[]]
  | '/' :: rest => [] :: splitOnSlash rest
  | c :: rest =>
    match splitOnSlash rest with
    | [] => [[c]]
    | comp :: comps => (c :: comp) :: comps

/-- The components pathlib keeps for a relative path: empty runs and
single-dot components are dropped, double-dot components are kept. -/
def pathComponents (p : List Char) : List (List Char) :=
  (splitOnSlash p).filter (fun c => c != [] && c != ['.'])

/-- Join components with slashes. -/
def joinSlash : List (List Char) → List Char
  | [] => []
  | [c] => c
  | c :: cs => c ++ '/' :: joinSlash cs

/-- str(Path(p)) for a relative p: normalized component join, or a single
dot when nothing remains. -/
def pathStrChars (p : List Char) : List Char :=
  match pathComponents p with
  | [] => ['.']
  | comps => joinSlash comps

/-- Substring test for two consecutive dots (the In operator of Python on
the string of two dots). -/
def hasDotDot : List Char → Bool
  | [] => false
  | [_] => false
  | a :: b :: rest => (a == '.' && b == '.') || hasDotDot (b :: rest)

/-- Path(p).is_absolute() on POSIX: the string starts with a slash. -/
def startsWithSlash : List Char → Bool
  | [] => false
  | c :: _ => c == '/'

/-- Path.resolve()'s treatment of double-dot components over an absolute
accumulator (no symlinks in this model; dot-dot at the root stays at the
root). -/
def resolveComps (acc : List (List Char)) : List (List Char) → List (List Char)
  | [] => acc
  | c :: rest =>
    if c = ['.', '.'] then resolveComps acc.dropLast rest
    else resolveComps (acc ++ [c]) rest

/-- The ValueError raised by resolve_path, split by its three sites. -/
inductive PathError where
  | absolutePath
  | traversal
  | escape
deriving DecidableEq

/-- ClientIsolationManager.resolve_path: reject absolute paths, reject a
normalized string containing two consecutive dots or starting with a
slash, then resolve under the jail and verify the result is still inside
it. -/
def resolvePath (base : List (List Char)) (clientId : String)
    (relativePath : String) : Except PathError (List (List Char)) :=
  let clientDir := base ++ [clientId.toList]
  let p := relativePath.toList
  if startsWithSlash p then .error .absolutePath
  else
    let pstr := pathStrChars p
    if hasDotDot pstr || startsWithSlash pstr then .error .traversal
    else
      let resolved := resolveComps clientDir (pathComponents p)
      if clientDir.isPrefixOf resolved then .ok resolved
      else .error .escape

/-- ClientIsolationManager.validate_access: allow paths inside the
client's own jail; otherwise require the cross-client permission flag.
The action tag is carried but never read by the decision logic, as in the
source. -/
def validateAccess (base : List (List Char)) (clientId : String)
    (targetPath : List (List Char)) (_action : String)
    (crossClientPermission : Bool) : Bool :=
  let clientDir := base ++ [clientId.toList]
  if clientDir.isPrefixOf targetPath then true
  else crossClientPermission

/-! ## Resource manager (resources/resource_manager.py)

Python ints are modelled as Int.  The cpu and disk fields are floats in
the source; they are never touched by allocate or release and are carried
as opaque integers here. -/

/-- Current resource usage for a client. -/
structure ResourceUsage where
  cpu_percent : Int := 0
  memory_mb : Int := 0
  disk_gb : Int := 0
  concurrent_processes : Int := 0
deriving DecidableEq

/-- Resource requirement for a subprocess (timeout seconds carried
opaquely; it is never read by allocate or release). -/
structure ResourceRequirement where
  memory_mb : Int := 128
  timeout_seconds : Int := 30
deriving DecidableEq

/-- ResourceManager usage table (quotas and violation counters are not
needed by the verified operations). -/
structure ResourceManager where
  client_usage : List (String × ResourceUsage) := []
deriving DecidableEq

/-- get_client_usage: read the usage record, inserting a default record
when the client is new (the source mutates the dict in place). -/
def getClientUsage (m : ResourceManager) (clientId : String) :
    ResourceUsage × ResourceManager :=
  match alistGet m.client_usage clientId with
  | some u => (u, m)
  | none =>
    ({}, { client_usage := alistSet m.client_usage clientId {} })

/-- ResourceManager.allocate: add the required memory and count one more
concurrent process.  The pid is only logged. -/
def allocate (m : ResourceManager) (clientId : String) (_pid : Int)
    (required : ResourceRequirement) : ResourceManager :=
  let (u, m) := getClientUsage m clientId
  { client_usage := alistSet m.client_usage clientId
      { u with memory_mb := u.memory_mb + required.memory_mb,
               concurrent_processes := u.concurrent_processes + 1 } }

/-- ResourceManager.release: decrement the process count when positive;
subtract the memory clamped at zero, and only when the tracked
requirement is present with positive memory.  The pid is only logged. -/
def release (m : ResourceManager) (clientId : String) (_pid : Int)
    (used : Option ResourceRequirement) : ResourceManager :=
  let (u, m) := getClientUsage m clientId
  let u := if u.concurrent_processes > 0 then
      { u with concurrent_processes := u.concurrent_processes - 1 } else u
  let u := match used with
    | some req => if req.memory_mb > 0 then
        { u with memory_mb := max 0 (u.memory_mb - req.memory_mb) } else u
    | none => u
  { client_usage := alistSet m.client_usage clientId u }

/-- The usage record the manager reports for a client (defaults when the
client is unknown). -/
def usageOf (m : ResourceManager) (clientId : String) : ResourceUsage :=
  (alistGet m.client_usage clientId).getD {}

/-! ## JSON store atomic write (persistence/json_store.py)

The write path is modelled as the trace of file-system operations the
method performs, in order. -/

/-- A file path as directory components plus file name stem and suffix. -/
structure JPath where
  dir : List String
  stem : String
  suffix : String
deriving DecidableEq

/-- Path.with_suffix: same directory and stem, replaced suffix. -/
def JPath.withSuffix (p : JPath) (s : String) : JPath :=
  { p with suffix := s }

/-- File-system operations issued by the JSON store. -/
inductive FsOp where
  | writeFile (path : JPath) (content : String)
  | fsyncFile (path : JPath)
  | rename (src dst : JPath)
  | chmod (path : JPath) (mode : Nat)
deriving DecidableEq

/-- Is the operation an fsync? -/
def FsOp.isFsync : FsOp → Bool
  | .fsyncFile _ => true
  | _ => false

/-- JSONStore._write_atomic: serialize to the sibling temp file (same
directory, suffix .tmp), rename it over the target, then chmod the target
to octal 600 (decimal 384).  This is the complete operation trace of the
method body. -/
def writeAtomicOps (target : JPath) (serialized : String) : List FsOp :=
  let tempPath := target.withSuffix ".tmp"
  [ .writeFile tempPath serialized,
    .rename tempPath target,
    .chmod target 384 ]

/-! ## Tokens (security/authentication/jwt_handler.py, persistence/token_store.py)

A JWT string is modelled by its parsed claims together with the secret it
was signed with; signature verification is equality of that secret with
the handler's key.  SHA-256 hashing of token strings is modelled as an
injective tagging function (equal tokens, equal hashes). -/

/-- A signed JWT (access or refresh). -/
structure JwtToken where
  sub : String
  username : String
  jti : String
  iat : Nat
  exp : Nat
  roles : List String := []
  tokenType : String
  signedWith : String
deriving DecidableEq

/-- SHA-256 digest of a token, modelled injectively. -/
structure TokenHash where
  ofToken : JwtToken
deriving DecidableEq

/-- TokenManager._hash_token. -/
def hashToken (t : JwtToken) : TokenHash := ⟨t⟩

/-- A stored token-registry row. -/
structure TokenRecord where
  jti : String
  client_id : String
  username : String
  access_token_hash : TokenHash
  refresh_token_hash : TokenHash
  created_at : Nat
  access_expires_at : Nat
  refresh_expires_at : Nat
  revoked : Bool := false
  revoked_at : Option Nat := none
deriving DecidableEq

/-- Errors raised by the token registry: TokenNotFoundError and
TokenRevoked (the argument carries the jti of the revoked row, or the
token type searched for when nothing was found). -/
inductive TokenStoreError where
  | notFound (what : String)
  | revokedTok (jti : String)
deriving DecidableEq

/-- TokenManager.create_token: hash both tokens and append a fresh
unrevoked row. -/
def createToken (store : List TokenRecord) (now : Nat)
    (jti clientId username : String) (accessToken refreshToken : JwtToken)
    (accessExp refreshExp : Nat) : TokenRecord × List TokenRecord :=
  let record : TokenRecord :=
    { jti := jti, client_id := clientId, username := username,
      access_token_hash := hashToken accessToken,
      refresh_token_hash := hashToken refreshToken,
      created_at := now, access_expires_at := accessExp,
      refresh_expires_at := refreshExp }
  (record, store ++ [record])

/-- TokenManager.validate_token: scan the rows; on the first row whose
stored hash (for the requested kind) equals the hash of the presented
token, raise TokenRevoked when the row is revoked, else return the row;
raise TokenNotFoundError when no row matches. -/
def validateToken (store : List TokenRecord) (token : JwtToken)
    (tokenType : String) : Except TokenStoreError TokenRecord :=
  match store with
  | [] => .error (.notFound tokenType)
  | record :: rest =>
    if tokenType = "access" && record.access_token_hash == hashToken token then
      if record.revoked then .error (.revokedTok record.jti) else .ok record
    else if tokenType = "refresh" && record.refresh_token_hash == hashToken token then
      if record.revoked then .error (.revokedTok record.jti) else .ok record
    else validateToken rest token tokenType

/-- TokenManager.revoke_token: set the revoked flag and timestamp on the
first row with the given jti; raise TokenNotFoundError otherwise. -/
def revokeToken (store : List TokenRecord) (jti : String) (now : Nat) :
    Except TokenStoreError (List TokenRecord) :=
  match store with
  | [] => .error (.notFound jti)
  | record :: rest =>
    if record.jti = jti then
      .ok ({ record with revoked := true, revoked_at := some now } :: rest)
    else
      (revokeToken rest jti now).map (fun rest2 => record :: rest2)

/-- JWTHandler configuration (expiry windows in seconds). -/
structure JWTHandler where
  secretKey : String
  accessTokenExpireSecs : Nat := 3600
  refreshTokenExpireSecs : Nat := 604800
deriving DecidableEq

/-- JWT verification errors. -/
inductive JwtError where
  | invalid (msg : String)
  | expired (msg : String)
  | claim (msg : String)
deriving DecidableEq

/-- Extracted claims. -/
structure JWTClaims where
  sub : String
  username : String
  jti : String
  iat : Nat
  exp : Nat
  roles : List String
deriving DecidableEq

/-- JWTHandler.verify: check the signature (secret equality in this
model) and the expiry.  The required claims are structurally present in
the model, so the missing-claim branch is unreachable. -/
def jwtVerify (h : JWTHandler) (now : Nat) (token : JwtToken) :
    Except JwtError JWTClaims :=
  if token.signedWith ≠ h.secretKey then .error (.invalid "Invalid signature")
  else if token.exp < now then .error (.expired "Token expired")
  else .ok { sub := token.sub, username := token.username, jti := token.jti,
             iat := token.iat, exp := token.exp, roles := token.roles }

/-- JWTHandler.refresh_access_token: verify the refresh token, require
its type tag to be refresh, and sign a new access token with a fresh jti
(supplied by the uuid oracle). -/
def refreshAccessToken (h : JWTHandler) (now : Nat) (freshJti : String)
    (refreshToken : JwtToken) : Except JwtError JwtToken :=
  match jwtVerify h now refreshToken with
  | .error e => .error e
  | .ok claims =>
    if refreshToken.tokenType ≠ "refresh" then .error (.claim "Not a refresh token")
    else .ok { sub := claims.sub, username := claims.username, jti := freshJti,
               iat := now, exp := now + h.accessTokenExpireSecs,
               roles := claims.roles, tokenType := "access",
               signedWith := h.secretKey }

/-- The successful auth/refresh reply. -/
structure RefreshReply where
  access_token : JwtToken
  expires_in : Nat
  token_type : String
deriving DecidableEq

/-- MCPServer._handle_auth_refresh: require the refresh_token parameter,
obtain a new access token from the JWT handler alone, and reply.  The
token-registry state is in scope (the server owns token_manager) but is
never consulted on this path — exactly as in the source. -/
def handleAuthRefresh (h : JWTHandler) (now : Nat) (freshJti : String)
    (_tokenStore : List TokenRecord) (refreshToken : Option JwtToken) :
    Except String RefreshReply :=
  match refreshToken with
  | none => .error "refresh_token required"
  | some tok =>
    match refreshAccessToken h now freshJti tok with
    | .error _ => .error "Token refresh failed"
    | .ok access =>
      .ok { access_token := access, expires_in := 3600, token_type := "Bearer" }

/-! ## Protocol state machine (protocol/mcp_protocol_handler.py) -/

/-- Per-client protocol state. -/
structure ProtocolState where
  initialized : Bool := false
  clientInfo : Option JsonValue := none
  serverInfo : Option JsonValue := none

/-- An incoming JSON-RPC frame. -/
structure TransportMessage where
  method : String
  params : Option JsonValue := none
  requestId : Option String := none

/-- A reply: a result message (whose params are the result wrapped under
a result key, carried here as the result payload) or a TransportError
envelope. -/
inductive ProtocolReply where
  | message (method : String) (result : JsonValue) (requestId : Option String)
  | error (code : Int) (message : String) (requestId : Option String)

/-- Protocol handler configuration: identity, capabilities and the
registered-method table (each handler maps params to a result or raises,
modelled as Except). -/
structure ProtocolCfg where
  serverName : String
  serverVersion : String
  capabilities : JsonValue
  handlers : List (String × (JsonValue → Except String JsonValue))

/-- The serverInfo payload built by the initialize handler. -/
def serverInfoJson (cfg : ProtocolCfg) : JsonValue :=
  .obj [("name", .str cfg.serverName), ("version", .str cfg.serverVersion),
        ("protocolVersion", .str "2024-11")]

/-- Python truthiness of the optional request id: None and the empty
string are falsy (the reply of a registered handler is suppressed for
them). -/
def truthyId : Option String → Bool
  | none => false
  | some s => s ≠ ""

/-- MCPProtocolHandler.handle_message for one client: dispatch
initialize and shutdown first, then require the initialized state, then
look the method up in the registered table. -/
def handleMessage (cfg : ProtocolCfg) (st : ProtocolState)
    (msg : TransportMessage) : ProtocolState × Option ProtocolReply :=
  if msg.method = "initialize" then
    let clientInfo :=
      match msg.params with
      | some (.obj fields) => (alistGet fields "clientInfo").getD (.obj [])
      | _ => .obj []
    let serverInfo := serverInfoJson cfg
    ({ initialized := true, clientInfo := some clientInfo,
       serverInfo := some serverInfo },
     some (.message "initialize"
       (.obj [("protocolVersion", .str "2024-11"),
              ("capabilities", cfg.capabilities),
              ("serverInfo", serverInfo)]) msg.requestId))
  else if msg.method = "shutdown" then
    ({ st with initialized := false },
     some (.message "shutdown" (.obj [("status", .str "ok")]) msg.requestId))
  else if !st.initialized then
    (st, some (.error (-32600) "Client must call initialize first" msg.requestId))
  else
    match alistGet cfg.handlers msg.method with
    | none =>
      (st, some (.error (-32601) ("Method not found: " ++ msg.method) msg.requestId))
    | some handler =>
      match handler (msg.params.getD (.obj [])) with
      | .ok result =>
        if truthyId msg.requestId then
          (st, some (.message msg.method result msg.requestId))
        else (st, none)
      | .error _ =>
        (st, some (.error (-32603) ("Error executing " ++ msg.method) msg.requestId))

/-! ## Execution manager (resources/execution_manager.py) -/

/-- Input schema: property name to declared primitive type (when the
property schema names one), plus the required list. -/
structure InputSchema where
  properties : List (String × Option String) := []
  required : List String := []

/-- A registered tool (handler behaviour is supplied to executeTool as an
oracle). -/
structure Tool where
  name : String
  input_schema : InputSchema := {}
  permissions : List Permission := []
  timeout : Nat := 30

/-- ExecutionManager._check_type.  Python's bool is a subclass of int, so
a boolean value passes the integer and number checks; unknown type names
pass. -/
def checkJsonType (v : JsonValue) (expected : String) : Bool :=
  if expected = "string" then (match v with | .str _ => true | _ => false)
  else if expected = "number" then
    (match v with | .int _ => true | .bool _ => true | _ => false)
  else if expected = "integer" then
    (match v with | .int _ => true | .bool _ => true | _ => false)
  else if expected = "boolean" then (match v with | .bool _ => true | _ => false)
  else if expected = "array" then (match v with | .arr _ => true | _ => false)
  else if expected = "object" then (match v with | .obj _ => true | _ => false)
  else if expected = "null" then (match v with | .null => true | _ => false)
  else true

/-- Validation failures, by the two raise sites. -/
inductive ValidationFailure where
  | missingRequired (field : String)
  | typeMismatch (field : String)
deriving DecidableEq

/-- First required field missing from the params. -/
def firstMissingRequired (params : List (String × JsonValue)) :
    List String → Option String
  | [] => none
  | f :: rest =>
    if (alistGet params f).isNone then some f
    else firstMissingRequired params rest

/-- First param whose declared type does not match. -/
def firstTypeMismatch (props : List (String × Option String)) :
    List (String × JsonValue) → Option String
  | [] => none
  | (name, value) :: rest =>
    match alistGet props name with
    | some (some expected) =>
      if checkJsonType value expected then firstTypeMismatch props rest
      else some name
    | _ => firstTypeMismatch props rest

/-- ExecutionManager._validate_params: required fields first, then basic
type checks. -/
def validateParams (params : List (String × JsonValue)) (schema : InputSchema) :
    Except ValidationFailure Unit :=
  match firstMissingRequired params schema.required with
  | some f => .error (.missingRequired f)
  | none =>
    match firstTypeMismatch schema.properties params with
    | some f => .error (.typeMismatch f)
    | none => .ok ()

/-- ExecutionManager._check_permissions: the checked form for every
required permission, stopping at the first denial. -/
def checkPermissions (pm : PermissionManager) (clientId : String) :
    List Permission → PermissionManager × Except PermissionDeniedError Unit
  | [] => (pm, .ok ())
  | p :: rest =>
    match checkPermission pm clientId p with
    | (pm2, .error e) => (pm2, .error e)
    | (pm2, .ok ()) => checkPermissions pm2 clientId rest

/-- Oracle for the awaited handler call under asyncio.wait_for: the
handler returns a (stringified) result, times out, or raises. -/
inductive RunOutcome where
  | ok (result : String)
  | timeout
  | raised (msg : String)
deriving DecidableEq

/-- An entry of the execution audit log (timestamp omitted:
wall-clock only). -/
structure ExecLogEntry where
  execution_id : String
  event_type : String := "tool_executed"
  client_id : String
  tool_name : String
  status : String
  execution_time_ms : Nat
  params : List (String × JsonValue)
  result : Option String := none
  error : Option String := none

/-- The MCP-shaped success value: one text content element and the
isError flag. -/
structure ToolCallResult where
  contentText : String
  isError : Bool
deriving DecidableEq

/-- The four failure classes surfaced by execute_tool. -/
inductive ExecFailure where
  | validation (f : ValidationFailure)
  | denied (e : PermissionDeniedError)
  | timeout (msg : String)
  | executionError (msg : String)

/-- Everything execute_tool produces: the updated permission manager, the
updated sandbox execution counters, the outcome, and the audit entries
appended during the call. -/
structure ExecOutput where
  pm : PermissionManager
  sandboxCounts : List (String × Nat)
  result : Except ExecFailure ToolCallResult
  log : List ExecLogEntry

/-- Message text of a ValidationError (per-field reason). -/
def validationMsg : ValidationFailure → String
  | .missingRequired f => "Missing required parameter: " ++ f
  | .typeMismatch f => "Invalid type for parameter: " ++ f

/-- ExecutionManager.execute_tool: validate, authorize, count the
sandbox execution, run under timeout, and append exactly the audit entry
of the exit path taken.  The elapsed-time oracle stands for the
time.time() differences; the permission repr in the denial message is
elided. -/
def executeTool (pm : PermissionManager) (sandboxes : List (String × Nat))
    (tool : Tool) (clientId : String) (params : List (String × JsonValue))
    (run : RunOutcome) (elapsedMs : Nat) (executionId : String) : ExecOutput :=
  match validateParams params tool.input_schema with
  | .error vf =>
    { pm := pm, sandboxCounts := sandboxes, result := .error (.validation vf),
      log := [{ execution_id := executionId, client_id := clientId,
                tool_name := tool.name, status := "validation_error",
                execution_time_ms := elapsedMs, params := params,
                error := some (validationMsg vf) }] }
  | .ok () =>
    match checkPermissions pm clientId tool.permissions with
    | (pm2, .error d) =>
      { pm := pm2, sandboxCounts := sandboxes, result := .error (.denied d),
        log := [{ execution_id := executionId, client_id := clientId,
                  tool_name := tool.name, status := "permission_denied",
                  execution_time_ms := elapsedMs, params := params,
                  error := some ("Permission denied for " ++ d.clientId) }] }
    | (pm2, .ok ()) =>
      let sandboxes2 :=
        alistSet sandboxes clientId ((alistGet sandboxes clientId).getD 0 + 1)
      match run with
      | .ok r =>
        { pm := pm2, sandboxCounts := sandboxes2,
          result := .ok { contentText := r, isError := false },
          log := [{ execution_id := executionId, client_id := clientId,
                    tool_name := tool.name, status := "success",
                    execution_time_ms := elapsedMs, params := params,
                    result := some (r.take 500) }] }
      | .timeout =>
        let msg := "Tool execution timeout after " ++ toString tool.timeout ++ "s"
        { pm := pm2, sandboxCounts := sandboxes2,
          result := .error (.timeout msg),
          log := [{ execution_id := executionId, client_id := clientId,
                    tool_name := tool.name, status := "timeout",
                    execution_time_ms := elapsedMs, params := params,
                    error := some msg }] }
      | .raised msg =>
        { pm := pm2, sandboxCounts := sandboxes2,
          result := .error (.executionError ("Tool execution failed: " ++ msg)),
          log := [{ execution_id := executionId, client_id := clientId,
                    tool_name := tool.name, status := "error",
                    execution_time_ms := elapsedMs, params := params,
                    error := some msg }] }

/-! ## Concrete scenario data used by closed theorems -/

/-- A signing secret of the length the handler requires (32+ chars). -/
def c1Secret : String := "test-secret-key-at-least-32-characters-long!!!!"

/-- The server's JWT handler in the scenario. -/
def c1Handler : JWTHandler := { secretKey := c1Secret }

/-- The refresh token minted by a successful auth/token. -/
def c1RefreshTok : JwtToken :=
  { sub := "c1", username := "alice", jti := "rjti", iat := 0, exp := 1000,
    tokenType := "refresh", signedWith := c1Secret }

/-- The access token minted by the same auth/token. -/
def c1AccessTok : JwtToken :=
  { sub := "c1", username := "alice", jti := "ajti", iat := 0, exp := 100,
    tokenType := "access", signedWith := c1Secret }

/-- The registry after auth/token recorded the pair under jti1. -/
def c1Store : List TokenRecord :=
  (createToken [] 0 "jti1" "c1" "alice" c1AccessTok c1RefreshTok 100 1000).2

/-- The registry row after auth/revoke of jti1 at time 5. -/
def c1RevokedStore : List TokenRecord :=
  [{ (createToken [] 0 "jti1" "c1" "alice" c1AccessTok c1RefreshTok 100 1000).1 with
      revoked := true, revoked_at := some 5 }]

/-- The access token the refresh handler mints in the scenario. -/
def c1NewAccess : JwtToken :=
  { sub := "c1", username := "alice", jti := "newjti", iat := 10, exp := 3610,
    tokenType := "access", signedWith := c1Secret }

/-- A protocol configuration with the built-in methods registered. -/
def c2Cfg : ProtocolCfg :=
  { serverName := "MCPServer", serverVersion := "0.1.0-alpha",
    capabilities := .obj [],
    handlers := [("tools/list", fun _ => .ok (.obj [])),
                 ("tools/call", fun _ => .ok (.obj []))] }

/-- The tokens.json store path of the scenario. -/
def c3Target : JPath := { dir := ["data"], stem := "tokens", suffix := ".json" }

/-! ## Helper lemmas -/

theorem alistGet_alistSet_self {α : Type} (l : List (String × α)) (k : String) (v : α) :
    alistGet (alistSet l k v) k = some v := by
  induction l with
  | nil => simp [alistSet, alistGet]
  | cons kv rest ih =>
    obtain ⟨k2, v2⟩ := kv
    by_cases h : k2 = k
    · subst h
      simp [alistSet, alistGet]
    · simp [alistSet, alistGet, h, ih]

theorem usageOf_allocate (m : ResourceManager) (c : String) (pid : Int)
    (req : ResourceRequirement) :
    usageOf (allocate m c pid req) c =
      { usageOf m c with
        memory_mb := (usageOf m c).memory_mb + req.memory_mb,
        concurrent_processes := (usageOf m c).concurrent_processes + 1 } := by
  unfold allocate getClientUsage usageOf
  cases h : alistGet m.client_usage c <;>
    simp [h, alistGet_alistSet_self]

theorem usageOf_release (m : ResourceManager) (c : String) (pid : Int)
    (used : Option ResourceRequirement) :
    usageOf (release m c pid used) c =
      (let u := usageOf m c
       let u := if u.concurrent_processes > 0 then
           { u with concurrent_processes := u.concurrent_processes - 1 } else u
       match used with
       | some req => if req.memory_mb > 0 then
           { u with memory_mb := max 0 (u.memory_mb - req.memory_mb) } else u
       | none => u) := by
  unfold release getClientUsage usageOf
  cases h : alistGet m.client_usage c <;>
    simp [h, alistGet_alistSet_self]

theorem hasPermission_eq_any (m : PermissionManager) (c : String) (r : Permission) :
    hasPermission m c r = (grantedPerms m c).any (fun g => g.pmatches r) := by
  unfold hasPermission grantedPerms
  cases h : alistGet m.clientPermissions c <;> simp [h]

/-! ## Claim theorems -/

/-- Claim C3, counterexample: at the concrete tokens.json target, the
atomic-write trace is serialize-to-temp, rename, chmod — and contains no
fsync operation, contradicting the claimed serialize/fsync/rename/chmod
sequence. -/
theorem c3_write_atomic_no_fsync :
    writeAtomicOps c3Target "x" =
      [.writeFile (c3Target.withSuffix ".tmp") "x",
       .rename (c3Target.withSuffix ".tmp") c3Target,
       .chmod c3Target 384] ∧
    (writeAtomicOps c3Target "x").any FsOp.isFsync = false := by
  constructor <;> rfl

/-- Claim C3, amended: every save executes, in order, exactly: serialize
the value to a sibling temporary file in the same directory as the target
(the .tmp suffix sibling), rename it over the target, and set the
target's permissions to owner read-write only (octal 600 = 384); no fsync
is performed. -/
theorem c3_write_atomic_trace (target : JPath) (serialized : String) :
    writeAtomicOps target serialized =
      [.writeFile (target.withSuffix ".tmp") serialized,
       .rename (target.withSuffix ".tmp") target,
       .chmod target 384] ∧
    (target.withSuffix ".tmp").dir = target.dir ∧
    (writeAtomicOps target serialized).any FsOp.isFsync = false := by
  refine ⟨rfl, rfl, rfl⟩

/-- Claim C9: from any usage state with non-negative components and a
non-negative memory requirement, allocate then release with the identical
requirement restores the client's memory and process count, and release
never drives either usage component below zero. -/
theorem c9_allocate_release_roundtrip (m : ResourceManager) (c : String)
    (pid pid2 : Int) (req : ResourceRequirement) (used : Option ResourceRequirement)
    (hmem : 0 ≤ (usageOf m c).memory_mb)
    (hproc : 0 ≤ (usageOf m c).concurrent_processes)
    (hreq : 0 ≤ req.memory_mb) :
    ((usageOf (release (allocate m c pid req) c pid2 (some req)) c).memory_mb
        = (usageOf m c).memory_mb ∧
     (usageOf (release (allocate m c pid req) c pid2 (some req)) c).concurrent_processes
        = (usageOf m c).concurrent_processes) ∧
    (0 ≤ (usageOf (release m c pid used) c).memory_mb ∧
     0 ≤ (usageOf (release m c pid used) c).concurrent_processes) := by
  have hra := usageOf_release (allocate m c pid req) c pid2 (some req)
  have ha := usageOf_allocate m c pid req
  have hr := usageOf_release m c pid used
  constructor
  · rw [hra, ha]
    by_cases hpos : req.memory_mb > 0
    · simp only [hpos]
      constructor
      · simp only [show (usageOf m c).concurrent_processes + 1 > 0 by omega, if_true]
        simp
        omega
      · simp only [show (usageOf m c).concurrent_processes + 1 > 0 by omega, if_true]
        simp
    · have h0 : req.memory_mb = 0 := by omega
      simp only [hpos, if_false, h0]
      constructor
      · simp only [show (usageOf m c).concurrent_processes + 1 > 0 by omega, if_true]
        simp
      · simp only [show (usageOf m c).concurrent_processes + 1 > 0 by omega, if_true]
        simp
  · rw [hr]
    cases used with
    | none =>
      by_cases hpos : (usageOf m c).concurrent_processes > 0 <;>
        simp [hpos] <;> omega
    | some r2 =>
      by_cases hpos : (usageOf m c).concurrent_processes > 0 <;>
        by_cases hm2 : r2.memory_mb > 0 <;>
          simp [hpos, hm2] <;> omega

/-- Claim C9 witness at a concrete state and requirement. -/
theorem c9_allocate_release_roundtrip_witness :
    (0:Int) ≤ (usageOf {} "alice").memory_mb ∧
    ((usageOf (release (allocate {} "alice" 1 { memory_mb := 256 }) "alice" 1
        (some { memory_mb := 256 })) "alice").memory_mb
      = (usageOf ({} : ResourceManager) "alice").memory_mb ∧
     (usageOf (release (allocate {} "alice" 1 { memory_mb := 256 }) "alice" 1
        (some { memory_mb := 256 })) "alice").concurrent_processes
      = (usageOf ({} : ResourceManager) "alice").concurrent_processes) := by
  refine ⟨by decide, ((c9_allocate_release_roundtrip {} "alice" 1 1 { memory_mb := 256 }
    (some { memory_mb := 256 }) (by decide) (by decide) (by decide)).1)⟩

/-- Claim C10: permission equality disregards the parameter map, and
granting a permission that differs from an already-held one only in its
parameters leaves the manager (permission list and audit ring) completely
unchanged. -/
theorem c10_grant_idempotent_modulo_parameters (m : PermissionManager)
    (c : String) (P : List Permission) (p q : Permission)
    (hc : alistGet m.clientPermissions c = some P) (hp : p ∈ P)
    (ht : q.type = p.type) (hres : q.resource = p.resource)
    (hrest : q.restricted = p.restricted) :
    p.pyEq q = true ∧ grantPermission m c q = m := by
  have hpy : p.pyEq q = true := by
    simp [Permission.pyEq, ht, hres, hrest]
  refine ⟨hpy, ?_⟩
  unfold grantPermission
  have hnone : (alistGet m.clientPermissions c).isNone = false := by simp [hc]
  simp only [hnone, Bool.false_eq_true, if_false, hc]
  have hex : ∃ x ∈ P, x.pyEq q = true := ⟨p, hp, hpy⟩
  simp [hc, hex]

/-- Claim C10 witness: a second grant differing only in parameters leaves
the concrete manager untouched. -/
theorem c10_grant_idempotent_modulo_parameters_witness :
    Permission.pyEq { type := .FILE_READ, resource := some (.str "/test/*") }
      { type := .FILE_READ, resource := some (.str "/test/*"),
        parameters := [("max_size", "1024")] } = true ∧
    grantPermission
      { clientPermissions := [("t", [{ type := .FILE_READ, resource := some (.str "/test/*") }])],
        auditTrail := [] } "t"
      { type := .FILE_READ, resource := some (.str "/test/*"),
        parameters := [("max_size", "1024")] } =
      { clientPermissions := [("t", [{ type := .FILE_READ, resource := some (.str "/test/*") }])],
        auditTrail := [] } :=
  c10_grant_idempotent_modulo_parameters
    { clientPermissions := [("t", [{ type := .FILE_READ, resource := some (.str "/test/*") }])],
      auditTrail := [] }
    "t" [{ type := .FILE_READ, resource := some (.str "/test/*") }]
    { type := .FILE_READ, resource := some (.str "/test/*") }
    { type := .FILE_READ, resource := some (.str "/test/*"),
      parameters := [("max_size", "1024")] }
    (by decide) (by decide) (by decide) (by decide) (by decide)

/-- Claim C5: for distinct clients A and B, any path under B's jail is
denied to A without the cross-client flag; in general validate_access
grants exactly the paths under the caller's own jail plus anything when
the cross-client permission flag is passed. -/
theorem c5_validate_access_isolation (base : List (List Char)) (A B : String)
    (target : List (List Char)) (action : String) :
    (A ≠ B → (base ++ [B.toList]) <+: target →
      validateAccess base A target action false = false) ∧
    (∀ cross, validateAccess base A target action cross = true ↔
      ((base ++ [A.toList]) <+: target ∨ cross = true)) := by
  constructor
  · intro hAB hB
    have hnotA : ¬ (base ++ [A.toList]) <+: target := by
      intro hA
      have hlen : (base ++ [A.toList]).length ≤ (base ++ [B.toList]).length := by simp
      have hpre : (base ++ [A.toList]) <+: (base ++ [B.toList]) :=
        List.prefix_of_prefix_length_le hA hB hlen
      have heq : base ++ [A.toList] = base ++ [B.toList] :=
        List.IsPrefix.eq_of_length hpre (by simp)
      have : A.toList = B.toList := by
        have := List.append_cancel_left heq
        simpa using this
      exact hAB (String.toList_inj.mp this)
    have hnotA2 : ¬ (base ++ [A.data]) <+: target := hnotA
    simp [validateAccess, hnotA2]
  · intro cross
    unfold validateAccess
    by_cases hA : (base ++ [A.toList]) <+: target
    · simp [hA]
    · simp [hA]

/-- Claim C5 witness: bob's file is denied to alice without the flag, and
alice's own file is granted. -/
theorem c5_validate_access_isolation_witness :
    validateAccess [['d']] "alice" [['d'], "bob".toList, ['s']] "read" false = false ∧
    validateAccess [['d']] "alice" [['d'], "alice".toList, ['s']] "read" false = true := by
  constructor
  · exact (c5_validate_access_isolation [['d']] "alice" "bob"
      [['d'], "bob".toList, ['s']] "read").1 (by decide) (by decide)
  · exact ((c5_validate_access_isolation [['d']] "alice" "bob"
      [['d'], "alice".toList, ['s']] "read").2 false).mpr (.inl (by decide))

/-- Claim C7: when no granted permission of the client matches the
required one (in particular when the client has no permission set),
has_permission is false and check_permission raises the distinguished
denial error while appending a denial event to the audit ring; and
check_permission returns normally exactly when some granted permission
matches. -/
theorem c7_deny_by_default (m : PermissionManager) (c : String) (r : Permission) :
    ((∀ g ∈ grantedPerms m c, g.pmatches r = false) →
      hasPermission m c r = false ∧
      checkPermission m c r =
        ({ m with auditTrail := m.auditTrail ++
            [{ eventType := "permission_denied", clientId := c, data := .perm r }] },
         .error { clientId := c, permission := r })) ∧
    ((checkPermission m c r).2 = .ok () ↔ ∃ g ∈ grantedPerms m c, g.pmatches r = true) := by
  have hany := hasPermission_eq_any m c r
  constructor
  · intro hnone
    have hfalse : hasPermission m c r = false := by
      rw [hany]
      simp only [List.any_eq_false]
      intro g hg
      simp [hnone g hg]
    refine ⟨hfalse, ?_⟩
    unfold checkPermission
    simp [hfalse]
  · unfold checkPermission
    by_cases h : hasPermission m c r = true
    · simp only [h, if_true]
      rw [hany] at h
      simp only [List.any_eq_true] at h
      simp [h]
    · have hfalse : hasPermission m c r = false := by
        cases hh : hasPermission m c r
        · rfl
        · exact absurd hh h
      simp only [hfalse, Bool.false_eq_true, if_false]
      rw [hany] at hfalse
      simp only [List.any_eq_false] at hfalse
      constructor
      · intro habs
        exact absurd habs (by simp)
      · intro ⟨g, hg, hgm⟩
        exact absurd hgm (by simp [hfalse g hg])

/-- Claim C7 witness: a client with an empty permission set is denied and
the denial is recorded; a client holding a matching glob grant passes. -/
theorem c7_deny_by_default_witness :
    (hasPermission (initClient {} "t" (some [])) "t"
        { type := .FILE_WRITE, resource := some (.str "/tmp/x") } = false ∧
     checkPermission (initClient {} "t" (some [])) "t"
        { type := .FILE_WRITE, resource := some (.str "/tmp/x") } =
       ({ initClient {} "t" (some []) with
          auditTrail := (initClient {} "t" (some [])).auditTrail ++
            [{ eventType := "permission_denied", clientId := "t",
               data := .perm { type := .FILE_WRITE, resource := some (.str "/tmp/x") } }] },
        .error { clientId := "t",
                 permission := { type := .FILE_WRITE, resource := some (.str "/tmp/x") } })) ∧
    (checkPermission (initClient {} "t" (some [READ_APP_DATA])) "t"
        { type := .FILE_READ, resource := some (.str "/app/data/f.txt") }).2 = .ok () := by
  constructor
  · exact (c7_deny_by_default (initClient {} "t" (some [])) "t"
      { type := .FILE_WRITE, resource := some (.str "/tmp/x") }).1 (by decide)
  · exact (c7_deny_by_default (initClient {} "t" (some [READ_APP_DATA])) "t"
      { type := .FILE_READ, resource := some (.str "/app/data/f.txt") }).2.mpr
      ⟨READ_APP_DATA, by decide, by decide⟩

/-- Claim C2, counterexample: in the fresh (not-initialized) state a
request for the method shutdown is processed — it is answered with a
status-ok result message, not with JSON-RPC error -32600, because the
handler dispatches the lifecycle methods before the initialized check. -/
theorem c2_fresh_shutdown_processed :
    (handleMessage c2Cfg {} { method := "shutdown", requestId := some "1" }).1.initialized
      = false ∧
    (handleMessage c2Cfg {} { method := "shutdown", requestId := some "1" }).2
      = some (.message "shutdown" (.obj [("status", .str "ok")]) (some "1")) := by
  constructor <;> rfl

/-- Claim C2, amended: in the fresh state, initialize is processed
(replying protocolVersion, capabilities and serverInfo, and transitioning
the state to initialized), shutdown is also processed (replying status
ok, the state staying non-initialized), and a request for any other
method receives JSON-RPC error -32600 with the state unchanged. -/
theorem c2_fresh_dispatch (cfg : ProtocolCfg) (st : ProtocolState)
    (msg : TransportMessage) (hfresh : st.initialized = false) :
    (msg.method = "initialize" →
      (handleMessage cfg st msg).1.initialized = true ∧
      (handleMessage cfg st msg).2 =
        some (.message "initialize"
          (.obj [("protocolVersion", .str "2024-11"),
                 ("capabilities", cfg.capabilities),
                 ("serverInfo", serverInfoJson cfg)]) msg.requestId)) ∧
    (msg.method = "shutdown" →
      (handleMessage cfg st msg).1 = { st with initialized := false } ∧
      (handleMessage cfg st msg).2 =
        some (.message "shutdown" (.obj [("status", .str "ok")]) msg.requestId)) ∧
    (msg.method ≠ "initialize" → msg.method ≠ "shutdown" →
      handleMessage cfg st msg =
        (st, some (.error (-32600) "Client must call initialize first" msg.requestId))) := by
  refine ⟨?_, ?_, ?_⟩
  · intro hm
    unfold handleMessage
    simp [hm]
  · intro hm
    have hne : msg.method ≠ "initialize" := by simp [hm]
    unfold handleMessage
    simp [hm, hne]
  · intro h1 h2
    unfold handleMessage
    simp [h1, h2, hfresh]

/-- Claim C2 (amended) witness: concrete fresh-state dispatches of
initialize and of a non-lifecycle method. -/
theorem c2_fresh_dispatch_witness :
    ((handleMessage c2Cfg {} { method := "initialize", requestId := some "1" }).1.initialized
       = true) ∧
    (handleMessage c2Cfg {} { method := "tools/list", requestId := some "1" } =
      ({}, some (.error (-32600) "Client must call initialize first" (some "1")))) := by
  constructor
  · exact ((c2_fresh_dispatch c2Cfg {} { method := "initialize", requestId := some "1" }
      rfl).1 rfl).1
  · exact (c2_fresh_dispatch c2Cfg {} { method := "tools/list", requestId := some "1" }
      rfl).2.2 (by decide) (by decide)

/-- Claim C1: the bug exhibited on the code.  After auth/token records
the pair under jti1 and auth/revoke marks that row revoked, the registry
itself rejects the refresh token as revoked (TokenManager.validate_token
raises TokenRevoked) — yet the server's auth/refresh handler, which
consults only the JWT minter and never the registry, still returns a new
access token for the very same refresh token instead of an error. -/
theorem c1_refresh_ignores_revocation :
    revokeToken c1Store "jti1" 5 = .ok c1RevokedStore ∧
    (c1RevokedStore.map (fun r => r.revoked)) = [true] ∧
    validateToken c1RevokedStore c1RefreshTok "refresh" = .error (.revokedTok "jti1") ∧
    handleAuthRefresh c1Handler 10 "newjti" c1RevokedStore (some c1RefreshTok) =
      .ok { access_token := c1NewAccess, expires_in := 3600, token_type := "Bearer" } := by
  refine ⟨rfl, rfl, rfl, rfl⟩

/-- Claim C8: execute_tool appends exactly one audit entry on every exit
path, carrying the client id, tool name and elapsed time; the status is
success exactly when the call returns a non-error result, and each
failure class (validation error, permission denied, timeout, runtime
error) is logged under its corresponding status. -/
theorem c8_execute_tool_audits_once (pm : PermissionManager)
    (sandboxes : List (String × Nat)) (tool : Tool) (clientId : String)
    (params : List (String × JsonValue)) (run : RunOutcome) (elapsedMs : Nat)
    (executionId : String) :
    (executeTool pm sandboxes tool clientId params run elapsedMs executionId).log.length = 1 ∧
    (executeTool pm sandboxes tool clientId params run elapsedMs executionId).log.head?.map
      (fun e => e.client_id) = some clientId ∧
    (executeTool pm sandboxes tool clientId params run elapsedMs executionId).log.head?.map
      (fun e => e.tool_name) = some tool.name ∧
    (executeTool pm sandboxes tool clientId params run elapsedMs executionId).log.head?.map
      (fun e => e.execution_time_ms) = some elapsedMs ∧
    ((∃ res, (executeTool pm sandboxes tool clientId params run elapsedMs executionId).result
        = .ok res) ↔
      (executeTool pm sandboxes tool clientId params run elapsedMs executionId).log.head?.map
        (fun e => e.status) = some "success") ∧
    (∀ f, (executeTool pm sandboxes tool clientId params run elapsedMs executionId).result
        = .error (.validation f) →
      (executeTool pm sandboxes tool clientId params run elapsedMs executionId).log.head?.map
        (fun e => e.status) = some "validation_error") ∧
    (∀ d, (executeTool pm sandboxes tool clientId params run elapsedMs executionId).result
        = .error (.denied d) →
      (executeTool pm sandboxes tool clientId params run elapsedMs executionId).log.head?.map
        (fun e => e.status) = some "permission_denied") ∧
    (∀ msg, (executeTool pm sandboxes tool clientId params run elapsedMs executionId).result
        = .error (.timeout msg) →
      (executeTool pm sandboxes tool clientId params run elapsedMs executionId).log.head?.map
        (fun e => e.status) = some "timeout") ∧
    (∀ msg, (executeTool pm sandboxes tool clientId params run elapsedMs executionId).result
        = .error (.executionError msg) →
      (executeTool pm sandboxes tool clientId params run elapsedMs executionId).log.head?.map
        (fun e => e.status) = some "error") := by
  rcases hv : validateParams params tool.input_schema with vf | u
  · simp [executeTool, hv]
  · cases u
    rcases hc : checkPermissions pm clientId tool.permissions with ⟨pm2, res⟩
    cases res with
    | error d => simp [executeTool, hv, hc]
    | ok u2 =>
      cases u2
      cases run <;> simp [executeTool, hv, hc]

/-- Claim C8 witness: a concrete successful call appends exactly one
success entry. -/
theorem c8_execute_tool_audits_once_witness :
    (executeTool (initClient {} "t" (some [])) [] { name := "calc" } "t" []
      (.ok "7") 3 "e1").log.length = 1 ∧
    (executeTool (initClient {} "t" (some [])) [] { name := "calc" } "t" []
      (.ok "7") 3 "e1").log.head?.map (fun e => e.status) = some "success" :=
  ⟨(c8_execute_tool_audits_once (initClient {} "t" (some [])) [] { name := "calc" }
      "t" [] (.ok "7") 3 "e1").1,
   (c8_execute_tool_audits_once (initClient {} "t" (some [])) [] { name := "calc" }
      "t" [] (.ok "7") 3 "e1").2.2.2.2.1.mp ⟨{ contentText := "7", isError := false }, rfl⟩⟩

/-! ### Path lemmas for claim C4 -/

theorem hasDotDot_cons (x : Char) (l : List Char) (h : hasDotDot l = true) :
    hasDotDot (x :: l) = true := by
  cases l with
  | nil => simp [hasDotDot] at h
  | cons b r =>
    simp only [hasDotDot, Bool.or_eq_true]
    exact Or.inr h

theorem hasDotDot_slash_cons (w : List Char) :
    hasDotDot ('/' :: w) = hasDotDot w := by
  have hd : (('/' : Char) == '.') = false := by decide
  cases w with
  | nil => simp [hasDotDot]
  | cons b r => simp [hasDotDot, hd]

theorem hasDotDot_append_slash (a w : List Char) :
    hasDotDot (a ++ '/' :: w) = (hasDotDot a || hasDotDot w) := by
  have hd : (('/' : Char) == '.') = false := by decide
  induction a with
  | nil => simp [hasDotDot, hasDotDot_slash_cons]
  | cons x a2 ih =>
    cases a2 with
    | nil => simp [hasDotDot, hasDotDot_slash_cons, hd]
    | cons y r =>
      have hstep : x :: y :: r ++ '/' :: w = x :: ((y :: r) ++ '/' :: w) := by simp
      rw [hstep]
      have hform : (y :: r) ++ '/' :: w = y :: (r ++ '/' :: w) := rfl
      rw [hform]
      simp only [hasDotDot]
      rw [← hform, ih, Bool.or_assoc]

theorem hasDotDot_ne_nil_ne_dot (c : List Char) (h : hasDotDot c = true) :
    (c != [] && c != ['.']) = true := by
  cases c with
  | nil => simp [hasDotDot] at h
  | cons a t =>
    cases t with
    | nil => simp [hasDotDot] at h
    | cons b r => simp

theorem splitOnSlash_ne_nil (p : List Char) : splitOnSlash p ≠ [] := by
  cases p with
  | nil => simp [splitOnSlash]
  | cons a rest =>
    by_cases ha : a = '/'
    · simp [splitOnSlash, ha]
    · simp only [splitOnSlash, ha, if_false]
      cases h : splitOnSlash rest <;> simp

theorem splitOnSlash_no_slash (p : List Char) :
    ∀ c ∈ splitOnSlash p, '/' ∉ c := by
  induction p with
  | nil =>
    intro c hc
    simp [splitOnSlash] at hc
    simp [hc]
  | cons a rest ih =>
    intro c hc
    by_cases ha : a = '/'
    · subst ha
      simp only [splitOnSlash, if_pos rfl, List.mem_cons] at hc
      rcases hc with hc | hc
      · simp [hc]
      · exact ih c hc
    · rcases hs : splitOnSlash rest with _ | ⟨h1, t1⟩
      · exact absurd hs (splitOnSlash_ne_nil rest)
      · rw [show splitOnSlash (a :: rest) = (a :: h1) :: t1 by
          simp [splitOnSlash, ha, hs]] at hc
        rcases List.mem_cons.mp hc with hc | hc
        · subst hc
          intro hmem
          rcases List.mem_cons.mp hmem with he | he
          · exact ha he.symm
          · exact ih h1 (by rw [hs]; simp) he
        · exact ih c (by rw [hs]; simp [hc])

theorem splitOnSlash_any (p : List Char) :
    (splitOnSlash p).any hasDotDot = hasDotDot p := by
  induction p with
  | nil => simp [splitOnSlash, hasDotDot]
  | cons a rest ih =>
    by_cases ha : a = '/'
    · subst ha
      simp [splitOnSlash, hasDotDot_slash_cons, ih, hasDotDot]
    · rcases hs : splitOnSlash rest with _ | ⟨h1, t1⟩
      · exact absurd hs (splitOnSlash_ne_nil rest)
      · rw [show splitOnSlash (a :: rest) = (a :: h1) :: t1 by
          simp [splitOnSlash, ha, hs]]
        cases rest with
        | nil =>
          simp [splitOnSlash] at hs
          obtain ⟨e1, e2⟩ := hs
          subst e1; subst e2
          simp [hasDotDot]
        | cons b r =>
          rw [hs] at ih
          by_cases hb : b = '/'
          · subst hb
            have hsp : splitOnSlash ('/' :: r) = [] :: splitOnSlash r := by
              simp [splitOnSlash]
            rw [hsp] at hs
            have e1 : ([] : List Char) = h1 := (List.cons.injEq _ _ _ _ ▸ hs).1
            have e2 : splitOnSlash r = t1 := (List.cons.injEq _ _ _ _ ▸ hs).2
            subst e1; subst e2
            have hd : (('/' : Char) == '.') = false := by decide
            simp only [List.any_cons, hasDotDot, Bool.false_or,
              Bool.or_eq_true] at ih ⊢
            simp [hd, ih]
          · rcases hs2 : splitOnSlash r with _ | ⟨h2, t2⟩
            · exact absurd hs2 (splitOnSlash_ne_nil r)
            · have hsp : splitOnSlash (b :: r) = (b :: h2) :: t2 := by
                simp [splitOnSlash, hb, hs2]
              rw [hsp] at hs
              have e1 : b :: h2 = h1 := (List.cons.injEq _ _ _ _ ▸ hs).1
              have e2 : t2 = t1 := (List.cons.injEq _ _ _ _ ▸ hs).2
              subst e1; subst e2
              simp only [List.any_cons, Bool.or_eq_true, hasDotDot] at ih ⊢
              rw [Bool.or_assoc, ih]

theorem joinSlash_any (comps : List (List Char)) :
    hasDotDot (joinSlash comps) = comps.any hasDotDot := by
  induction comps with
  | nil => simp [joinSlash, hasDotDot]
  | cons c cs ih =>
    cases cs with
    | nil => simp [joinSlash]
    | cons d ds =>
      simp only [joinSlash]
      rw [hasDotDot_append_slash, ih]
      simp

theorem resolveComps_no_dotdot (acc comps : List (List Char))
    (h : ∀ c ∈ comps, c ≠ ['.', '.']) :
    resolveComps acc comps = acc ++ comps := by
  induction comps generalizing acc with
  | nil => simp [resolveComps]
  | cons c cs ih =>
    have hc : c ≠ ['.', '.'] := h c (by simp)
    simp only [resolveComps, hc, if_false]
    rw [ih (acc ++ [c]) (fun d hd => h d (by simp [hd]))]
    simp

theorem pathStrChars_hasDotDot (p : List Char) (h : hasDotDot p = true) :
    hasDotDot (pathStrChars p) = true := by
  have hany : (splitOnSlash p).any hasDotDot = true := by
    rw [splitOnSlash_any]; exact h
  rw [List.any_eq_true] at hany
  obtain ⟨c, hc, hcd⟩ := hany
  have hmem : c ∈ pathComponents p := by
    unfold pathComponents
    rw [List.mem_filter]
    exact ⟨hc, hasDotDot_ne_nil_ne_dot c hcd⟩
  unfold pathStrChars
  rcases hpc : pathComponents p with _ | ⟨d, ds⟩
  · rw [hpc] at hmem; simp at hmem
  · rw [hpc] at hmem
    simp only []
    rw [joinSlash_any, List.any_eq_true]
    exact ⟨c, hmem, hcd⟩

theorem pathComponents_no_dotdot (p : List Char) (h : hasDotDot p = false) :
    ∀ c ∈ pathComponents p, c ≠ ['.', '.'] := by
  intro c hc hceq
  have hmem : c ∈ splitOnSlash p := (List.mem_filter.mp hc).1
  have hT : (splitOnSlash p).any hasDotDot = true :=
    List.any_eq_true.2 ⟨c, hmem, by rw [hceq]; decide⟩
  rw [splitOnSlash_any, h] at hT
  exact absurd hT (by simp)

theorem pathStrChars_no_dotdot (p : List Char) (h : hasDotDot p = false) :
    hasDotDot (pathStrChars p) = false := by
  unfold pathStrChars
  rcases hpc : pathComponents p with _ | ⟨d, ds⟩
  · decide
  · simp only []
    rw [joinSlash_any]
    rw [show (d :: ds) = pathComponents p from hpc.symm]
    have hall : ∀ c ∈ splitOnSlash p, hasDotDot c = false := by
      have hs := splitOnSlash_any p
      rw [h] at hs
      intro c hc
      rcases hx : hasDotDot c with _ | _
      · rfl
      · exact absurd (List.any_eq_true.2 ⟨c, hc, hx⟩) (by rw [hs]; simp)
    rcases hx : (pathComponents p).any hasDotDot with _ | _
    · rfl
    · rw [List.any_eq_true] at hx
      obtain ⟨c, hc, hcd⟩ := hx
      exact absurd hcd (by rw [hall c ((List.mem_filter.mp hc).1)]; simp)

theorem pathStrChars_no_slash (p : List Char) :
    startsWithSlash (pathStrChars p) = false := by
  unfold pathStrChars
  rcases hpc : pathComponents p with _ | ⟨d, ds⟩
  · decide
  · simp only []
    have hdmem : d ∈ pathComponents p := by rw [hpc]; simp
    have hfil := List.mem_filter.mp hdmem
    have hdne : d ≠ [] := by
      intro he
      rw [he] at hfil
      simp at hfil
    have hdslash : '/' ∉ d := splitOnSlash_no_slash p d hfil.1
    cases d with
    | nil => exact absurd rfl hdne
    | cons x xs =>
      have hx : (x == '/') = false := by
        rcases he : x == '/' with _ | _
        · rfl
        · have hxe : x = '/' := by simpa using he
          subst hxe
          exact absurd (List.mem_cons_self _ _) hdslash
      cases ds with
      | nil => simp [joinSlash, startsWithSlash, hx]
      | cons e es => simp [joinSlash, startsWithSlash, hx]

/-- Claim C4: resolve_path raises on any relative-path string containing
two consecutive dots or starting with a slash; otherwise it returns the
jail-relative resolution, which lies under the client's jail directory
base/clientId. -/
theorem c4_resolve_path_safety (base : List (List Char)) (clientId : String)
    (p : String) :
    ((hasDotDot p.toList = true ∨ startsWithSlash p.toList = true) →
      ∃ e, resolvePath base clientId p = .error e) ∧
    (hasDotDot p.toList = false → startsWithSlash p.toList = false →
      resolvePath base clientId p =
        .ok (base ++ [clientId.toList] ++ pathComponents p.toList) ∧
      (base ++ [clientId.toList]) <+:
        base ++ [clientId.toList] ++ pathComponents p.toList) := by
  constructor
  · intro h
    by_cases habs : startsWithSlash p.toList = true
    · refine ⟨.absolutePath, ?_⟩
      have habsd : startsWithSlash p.data = true := habs
      unfold resolvePath
      simp [habsd]
    · have habs2 : startsWithSlash p.data = false := by
        rcases hx : startsWithSlash p.toList with _ | _
        · exact hx
        · exact absurd hx habs
      have hdd : hasDotDot p.toList = true := by
        rcases h with h | h
        · exact h
        · exact absurd h habs
      have hddd : hasDotDot (pathStrChars p.data) = true :=
        pathStrChars_hasDotDot _ hdd
      refine ⟨.traversal, ?_⟩
      unfold resolvePath
      simp [habs2, hddd]
  · intro hdd habs
    have h1 : hasDotDot (pathStrChars p.data) = false :=
      pathStrChars_no_dotdot p.toList hdd
    have h2 : startsWithSlash (pathStrChars p.data) = false :=
      pathStrChars_no_slash p.toList
    have h3 : resolveComps (base ++ [clientId.data]) (pathComponents p.data) =
        base ++ [clientId.data] ++ pathComponents p.data :=
      resolveComps_no_dotdot (base ++ [clientId.toList]) (pathComponents p.toList)
        (pathComponents_no_dotdot p.toList hdd)
    have habsd : startsWithSlash p.data = false := habs
    unfold resolvePath
    simp [habsd, h1, h2, h3]

/-- Claim C4 witness: a traversal attempt raises; a clean relative path
resolves under the jail. -/
theorem c4_resolve_path_safety_witness :
    (∃ e, resolvePath [['d']] "alice" "../../etc/passwd" = .error e) ∧
    resolvePath [['d']] "alice" "notes/a.txt" =
      .ok ([['d']] ++ ["alice".toList] ++ pathComponents "notes/a.txt".toList) :=
  ⟨(c4_resolve_path_safety [['d']] "alice" "../../etc/passwd").1 (Or.inl (by decide)),
   ((c4_resolve_path_safety [['d']] "alice" "notes/a.txt").2 (by decide) (by decide)).1⟩

/-! ### Permission-matching lemmas for claim C6 -/

theorem isFile_ne_SYSTEM_COMMAND (t : PermissionType) (h : t.isFile = true) :
    t ≠ .SYSTEM_COMMAND := by
  cases t <;> simp_all [PermissionType.isFile]

theorem validB_file_str (p : Permission) (hp : p.validB = true)
    (hf : p.type.isFile = true) (res : PResource) (hres : p.resource = some res) :
    ∃ s, res = .str s := by
  unfold Permission.validB at hp
  rw [Bool.and_eq_true] at hp
  rcases res with s | l
  · exact ⟨s, rfl⟩
  · have h1 := hp.1
    rw [hf, hres] at h1
    simp at h1

theorem contains_iff_mem (l : List String) (s : String) :
    l.contains s = true ↔ s ∈ l := by
  simp [List.contains, List.elem_iff]

/-- Claim C6: the source's Permission.matches agrees exactly with the
spec's match semantics (specMatches), for validated permissions. -/
theorem c6_match_semantics (g r : Permission)
    (hg : g.validB = true) (hr : r.validB = true) :
    g.pmatches r = true ↔ specMatches g r := by
  unfold Permission.pmatches specMatches
  by_cases ht : g.type = r.type
  · rcases hgr : g.resource with _ | gr
    · simp [ht, hgr]
    · rcases hrr : r.resource with _ | rr
      · simp [ht, hgr, hrr]
      · by_cases hf : g.type.isFile = true
        · have hfr : r.type.isFile = true := ht ▸ hf
          have hnscr : r.type ≠ .SYSTEM_COMMAND := isFile_ne_SYSTEM_COMMAND _ hfr
          obtain ⟨pat, hpat⟩ := validB_file_str g hg hf gr hgr
          obtain ⟨res, hres⟩ := validB_file_str r hr hfr rr hrr
          subst hpat
          subst hres
          simp [ht, hgr, hrr, hfr, hnscr, fnmatchRes]
        · have hfr : r.type.isFile = false := by
            rw [← ht]
            rcases hx : g.type.isFile with _ | _
            · rfl
            · exact absurd hx hf
          by_cases hsc : g.type = .SYSTEM_COMMAND
          · have hscr : r.type = .SYSTEM_COMMAND := ht ▸ hsc
            rcases gr with a | l
            · rcases rr with s | l2
              · simp only [ht, hgr, hrr]
                simp [hscr, PermissionType.isFile]
                exact eq_comm
              · simp only [ht, hgr, hrr]
                simp [hscr, PermissionType.isFile]
            · rcases rr with s | l2
              · simp only [ht, hgr, hrr]
                simp [hscr, PermissionType.isFile, contains_iff_mem]
              · simp only [ht, hgr, hrr]
                simp [hscr, PermissionType.isFile]
          · have hscr : r.type ≠ .SYSTEM_COMMAND := by
              rw [← ht]; exact hsc
            simp [ht, hgr, hrr, hfr, hscr]
  · simp [ht]

/-- Claim C6 witness: a whitelist grant matches a listed command and the
equivalence instantiates at concrete validated permissions. -/
theorem c6_match_semantics_witness :
    Permission.validB { type := .SYSTEM_COMMAND, resource := some (.strList ["ls", "grep"]) } = true ∧
    specMatches { type := .SYSTEM_COMMAND, resource := some (.strList ["ls", "grep"]) }
      { type := .SYSTEM_COMMAND, resource := some (.str "ls") } := by
  refine ⟨by decide, ?_⟩
  exact (c6_match_semantics
    { type := .SYSTEM_COMMAND, resource := some (.strList ["ls", "grep"]) }
    { type := .SYSTEM_COMMAND, resource := some (.str "ls") }
    (by decide) (by decide)).mp (by decide)

end MCP
